import Mathlib

/-!
Verification of the `styxsingularity` runner (`src/styxsingularity/__init__.py`).

The development shallowly embeds the pure core of the module:

* `singularity_mount`  — the mount-argument formatter `_singularity_mount`;
* `input_file`         — `_SingularityExecution.input_file` (host filesystem
  access is modelled by an explicit `FileSystem` oracle);
* `runScript`          — the content written to `<outputDir>/run.sh` by
  `_SingularityExecution.run`;
* `singularityCommand` — the engine argument vector assembled by
  `_SingularityExecution.run`;
* `runOutcome`         — the success / `StyxSingularityError` decision made by
  `_SingularityExecution.run` from the child's polled return code;
* `start_execution`    — `SingularityRunner.start_execution`.

Python strings are Lean `String`s; `str(n)` on a natural number is modelled by
`pyStr`, `str.startswith` by `pyStartswith`, `sep.join` by `strJoin`, and
`shlex.quote` / `shlex.join` by `shlexQuote` / `shlexJoin`, each following the
CPython implementations.  Host paths are modelled as the component lists of
absolute paths (`pathlib` guarantees that a component never contains a slash);
`Path.name` is the last component and `Path.parent` drops it.
-/

namespace Styx

/-- One decimal digit character, as produced by Python `str` on an integer. -/
def decDigit (d : Nat) : Char :=
  match d with
  | 0 => '0' | 1 => '1' | 2 => '2' | 3 => '3' | 4 => '4'
  | 5 => '5' | 6 => '6' | 7 => '7' | 8 => '8' | _ => '9'

/-- Fuelled decimal rendering; the fuel is structural so that terms reduce. -/
def natDigitsAux : Nat → Nat → List Char
  | 0, _ => []
  | fuel + 1, n =>
    if n < 10 then [decDigit n] else natDigitsAux fuel (n / 10) ++ [decDigit (n % 10)]

/-- Decimal digit string of a natural number. -/
def natDigits (n : Nat) : List Char := natDigitsAux (n + 1) n

/-- Python `str(n)` for a non-negative integer. -/
def pyStr (n : Nat) : String := ⟨natDigits n⟩

/-- Python `sep.join(parts)`. -/
def strJoin (sep : String) : List String → String
  | [] => ""
  | [x] => x
  | x :: y :: xs => x ++ sep ++ strJoin sep (y :: xs)

/-- Bool test that one character list starts with another. -/
def listStartsWith : List Char → List Char → Bool
  | _, [] => true
  | [], _ :: _ => false
  | c :: cs, p :: ps => c == p && listStartsWith cs ps

/-- Python `s.startswith(pre)`. -/
def pyStartswith (s pre : String) : Bool := listStartsWith s.data pre.data

/-- Characters CPython `shlex.quote` leaves unquoted (`[-A-Za-z0-9_@%+=:,./]`). -/
def shlexSafeChar (c : Char) : Bool :=
  c.isAlphanum || c = '_' || c = '@' || c = '%' || c = '+' || c = '=' ||
    c = ':' || c = ',' || c = '.' || c = '/' || c = '-'

/-- CPython `str.replace("'", "'\"'\"'")`, used inside `shlex.quote`. -/
def escSQ : List Char → List Char
  | [] => []
  | c :: cs =>
    if c = '\'' then '\'' :: '"' :: '\'' :: '"' :: '\'' :: escSQ cs
    else c :: escSQ cs

/-- CPython `shlex.quote`. -/
def shlexQuote (s : String) : String :=
  if s = "" then "''"
  else if s.data.all shlexSafeChar then s
  else "'" ++ String.mk (escSQ s.data) ++ "'"

/-- CPython `shlex.join`: space-join of the quoted arguments. -/
def shlexJoin (args : List String) : String :=
  strJoin " " (args.map shlexQuote)

/-- Characters `_singularity_mount` rejects: the raw string `r",\\:"`,
whose character set is comma, backslash and colon. -/
def illegalMountChar (c : Char) : Bool := c = ',' || c = '\\' || c = ':'

/-- `_singularity_mount(host_path, container_path, readonly)`: raises
`ValueError` when any character of either path is illegal, otherwise returns
`"host:container"` with `":ro"` appended when read-only. -/
def singularity_mount (host_path container_path : String) (readonly : Bool) :
    Except String String :=
  if (host_path ++ container_path).data.any illegalMountChar then
    Except.error "Illegal characters in path"
  else
    Except.ok (host_path ++ ":" ++ container_path ++ (if readonly then ":ro" else ""))

/-- A host path: the component list of an absolute `pathlib` path. -/
abbrev HostPath := List String

/-- `pathlib.Path.name`: the final component. -/
def pathName (p : HostPath) : String := p.getLastD ""

/-- `pathlib.Path.parent`: all but the final component. -/
def pathParent (p : HostPath) : HostPath := p.dropLast

/-- `Path.absolute().as_posix()` on an absolute path. -/
def posixPath (p : HostPath) : String := "/" ++ strJoin "/" p

/-- Oracle for the host-filesystem checks `Path.exists()` / `Path.is_dir()`
performed by `input_file`. -/
structure FileSystem where
  isFile : HostPath → Bool
  isDir : HostPath → Bool

/-- `Path.exists()`: true for files and directories alike. -/
def FileSystem.pathExists (fs : FileSystem) (p : HostPath) : Bool :=
  fs.isFile p || fs.isDir p

/-- One entry of `self.input_mounts`: the tuple `(host_path, local_file, mutable)`. -/
structure Mount where
  hostPath : HostPath
  localFile : String
  mutable : Bool
deriving DecidableEq

/-- The readonly flag `run()` passes to `_singularity_mount` for an input
mount: `readonly=not mutable`. -/
def Mount.readonlyFlag (m : Mount) : Bool := !m.mutable

/-- The state of a `_SingularityExecution`: its constructor fields plus the
mutable mount accumulator.  `outputDir` holds the absolute posix rendering of
`self.output_dir`. -/
structure SingularityExecution where
  outputDir : String
  containerTag : String
  singularityExecutable : String
  singularityExtraArgs : List String
  environ : List (String × String)
  inputMounts : List Mount
  inputFileNextId : Nat
deriving DecidableEq

/-- `_SingularityExecution.input_file(host_file, resolve_parent, mutable)`.
Returns the in-container path together with the updated execution state;
`FileNotFoundError` becomes `Except.error`. -/
def input_file (fs : FileSystem) (ex : SingularityExecution) (hostFile : HostPath)
    (resolveParent : Bool) (mutable : Bool) :
    Except String (String × SingularityExecution) :=
  if resolveParent then
    let parent := pathParent hostFile
    if fs.isDir parent then
      let localFile := "/styx_input/" ++ pyStr ex.inputFileNextId ++ "/" ++ pathName parent
      let resolvedFile := localFile ++ "/" ++ pathName hostFile
      Except.ok (resolvedFile,
        { ex with
          inputMounts := ex.inputMounts ++ [⟨parent, localFile, mutable⟩],
          inputFileNextId := ex.inputFileNextId + 1 })
    else
      Except.error "Input folder not found"
  else
    if fs.pathExists hostFile then
      let localFile := "/styx_input/" ++ pyStr ex.inputFileNextId ++ "/" ++ pathName hostFile
      Except.ok (localFile,
        { ex with
          inputMounts := ex.inputMounts ++ [⟨hostFile, localFile, mutable⟩],
          inputFileNextId := ex.inputFileNextId + 1 })
    else
      Except.error "Input file not found"

/-- `_SingularityExecution.output_file(local_file)`: a pure path join. -/
def output_file (ex : SingularityExecution) (localFile : String) : String :=
  ex.outputDir ++ "/" ++ localFile

/-- The content `run()` writes to `<outputDir>/run.sh`:
`f"#!/bin/bash\ncd /styx_output\n{shlex.join(cargs)}\n"`. -/
def runScript (cargs : List String) : String :=
  "#!/bin/bash\ncd /styx_output\n" ++ shlexJoin cargs ++ "\n"

/-- The `for host_file, local_file, mutable in self.input_mounts` loop of
`run()`: formats each input mount with `readonly=not mutable`, in declaration
order, propagating the first `ValueError`. -/
def inputMountSpecs : List Mount → Except String (List String)
  | [] => Except.ok []
  | m :: ms =>
    match singularity_mount (posixPath m.hostPath) m.localFile (!m.mutable) with
    | Except.error e => Except.error e
    | Except.ok s =>
      match inputMountSpecs ms with
      | Except.error e => Except.error e
      | Except.ok rest => Except.ok (s :: rest)

/-- The `"--bind"`-interleaved mount argument list built by `run()`. -/
def bindArgs (specs : List String) : List String :=
  (specs.map (fun s => ["--bind", s])).flatten

/-- `environ_args_arg`: the comma-joined `key=value` rendering of `self.environ`. -/
def environArgsArg (environ : List (String × String)) : String :=
  strJoin "," (environ.map (fun kv => kv.1 ++ "=" ++ kv.2))

/-- The `singularity_command` list assembled by `run()`: executable, `exec`,
extra args, mounts (inputs in declaration order, then the writable output
mount), the `--env` injection when `environ_args_arg` is truthy, container
tag, entrypoint override and script path. -/
def singularityCommand (ex : SingularityExecution) :
    Except String (List String) :=
  match inputMountSpecs ex.inputMounts with
  | Except.error e => Except.error e
  | Except.ok ins =>
    match singularity_mount ex.outputDir "/styx_output" false with
    | Except.error e => Except.error e
    | Except.ok outSpec =>
      Except.ok
        ([ex.singularityExecutable, "exec"] ++ ex.singularityExtraArgs ++
          bindArgs (ins ++ [outSpec]) ++
          (if environArgsArg ex.environ = "" then []
           else ["--env", environArgsArg ex.environ]) ++
          [ex.containerTag, "/bin/bash", "/styx_output/run.sh"])

/-- The constructor-argument record of a raised `StyxSingularityError`:
`run()` calls it positionally as
`StyxSingularityError(return_code, singularity_command, cargs)`. -/
structure SingularityErrorData where
  returnCode : Option Int
  commandArgs : List String
  singularityArgs : List String
deriving DecidableEq

/-- The errors `run()` can raise. -/
inductive RunError where
  | invalidPath (msg : String)
  | executionFailed (e : SingularityErrorData)
deriving DecidableEq

/-- Python truthiness of `process.poll()`'s result in `if return_code:`:
`None` and `0` are falsy, any other integer is truthy. -/
def truthyCode : Option Int → Bool
  | none => false
  | some c => c != 0

/-- The outcome of `run()` as a function of the child's polled return code:
assemble the command (propagating `ValueError` from mount formatting), then
raise `StyxSingularityError(return_code, singularity_command, cargs)` exactly
when the return code is truthy. -/
def runOutcome (ex : SingularityExecution) (cargs : List String)
    (returnCode : Option Int) : Except RunError Unit :=
  match singularityCommand ex with
  | Except.error e => Except.error (RunError.invalidPath e)
  | Except.ok cmd =>
    if truthyCode returnCode then
      Except.error (RunError.executionFailed ⟨returnCode, cmd, cargs⟩)
    else
      Except.ok ()

/-- The fields of `Metadata` that `start_execution` reads. -/
structure Metadata where
  name : String
  containerImageTag : Option String
deriving DecidableEq

/-- The state of a `SingularityRunner`. -/
structure SingularityRunner where
  dataDir : String
  uid : String
  executionCounter : Nat
  imageOverrides : List (String × String)
  singularityExecutable : String
  singularityExtraArgs : List String
  environ : List (String × String)
deriving DecidableEq

/-- `self.image_overrides.get(tag, tag)`: exact-match lookup with the tag
itself as default. -/
def lookupOverride (ov : List (String × String)) (tag : String) : String :=
  match ov.find? (fun kv => kv.1 == tag) with
  | some kv => kv.2
  | none => tag

/-- `SingularityRunner.start_execution(metadata)`: `ValueError` when the
metadata names no container image tag; otherwise resolve the tag through the
override table, prepend `docker://` when absent, bump the execution counter
and build a fresh execution whose output directory is
`<dataDir>/<uid>_<counter-1>_<name>`. -/
def start_execution (r : SingularityRunner) (md : Metadata) :
    Except String (SingularityExecution × SingularityRunner) :=
  match md.containerImageTag with
  | none => Except.error "No container image tag specified in metadata"
  | some tag =>
    let t := lookupOverride r.imageOverrides tag
    let containerTag := if pyStartswith t "docker://" then t else "docker://" ++ t
    let counter := r.executionCounter + 1
    Except.ok
      ({ outputDir := r.dataDir ++ "/" ++ r.uid ++ "_" ++ pyStr (counter - 1) ++ "_" ++ md.name,
         containerTag := containerTag,
         singularityExecutable := r.singularityExecutable,
         singularityExtraArgs := r.singularityExtraArgs,
         environ := r.environ,
         inputMounts := [],
         inputFileNextId := 0 },
       { r with executionCounter := counter })

/-! ### Facts about the decimal rendering `pyStr` -/

/-- Decimal value of a digit string, the inverse of `natDigits`. -/
def natVal (l : List Char) : Nat := l.foldl (fun a c => 10 * a + (c.toNat - 48)) 0

theorem decDigit_toNat (d : Nat) (h : d < 10) : (decDigit d).toNat = 48 + d := by
  interval_cases d <;> rfl

theorem decDigit_isDigit (d : Nat) (h : d < 10) : (decDigit d).isDigit = true := by
  interval_cases d <;> rfl

theorem natVal_natDigitsAux (fuel : Nat) :
    ∀ n, n < fuel → natVal (natDigitsAux fuel n) = n := by
  induction fuel with
  | zero => intro n h; omega
  | succ fuel ih =>
    intro n h
    unfold natDigitsAux
    by_cases h10 : n < 10
    · simp only [if_pos h10, natVal, List.foldl]
      rw [decDigit_toNat n h10]
      omega
    · have hpos : 0 < n := by omega
      have hlt : n / 10 < n := Nat.div_lt_self hpos (by omega)
      simp only [if_neg h10, natVal, List.foldl_append, List.foldl]
      have hv := ih (n / 10) (by omega)
      simp only [natVal] at hv
      rw [hv, decDigit_toNat (n % 10) (Nat.mod_lt _ (by omega))]
      omega

theorem natVal_natDigits (n : Nat) : natVal (natDigits n) = n :=
  natVal_natDigitsAux (n + 1) n (Nat.lt_succ_self n)

theorem natDigits_inj {m n : Nat} (h : natDigits m = natDigits n) : m = n := by
  have hv := congrArg natVal h
  rwa [natVal_natDigits, natVal_natDigits] at hv

theorem natDigitsAux_isDigit (fuel : Nat) :
    ∀ n, ∀ c ∈ natDigitsAux fuel n, c.isDigit = true := by
  induction fuel with
  | zero => intro n c hc; simp [natDigitsAux] at hc
  | succ fuel ih =>
    intro n c hc
    unfold natDigitsAux at hc
    by_cases h10 : n < 10
    · rw [if_pos h10] at hc
      simp only [List.mem_singleton] at hc
      subst hc
      exact decDigit_isDigit n h10
    · rw [if_neg h10] at hc
      rcases List.mem_append.mp hc with h1 | h2
      · exact ih _ c h1
      · simp only [List.mem_singleton] at h2
        subst h2
        exact decDigit_isDigit _ (Nat.mod_lt _ (by omega))

theorem natDigits_isDigit (n : Nat) : ∀ c ∈ natDigits n, c.isDigit = true :=
  natDigitsAux_isDigit (n + 1) n

theorem natDigits_not_mem (n : Nat) (c : Char) (hc : c.isDigit = false) :
    c ∉ natDigits n := by
  intro hmem
  rw [natDigits_isDigit n c hmem] at hc
  exact Bool.noConfusion hc

/-! ### Splitting concatenations at a separator -/

theorem sep_split {sep : Char} :
    ∀ {a c b d : List Char}, sep ∉ a → sep ∉ c →
      a ++ sep :: b = c ++ sep :: d → a = c ∧ b = d := by
  intro a
  induction a with
  | nil =>
    intro c b d _ hc h
    cases c with
    | nil => simpa using h
    | cons y ys =>
      simp only [List.nil_append, List.cons_append, List.cons.injEq] at h
      exact absurd (h.1 ▸ List.mem_cons_self y ys) (h.1 ▸ hc)
  | cons x xs ih =>
    intro c b d ha hc h
    cases c with
    | nil =>
      simp only [List.cons_append, List.nil_append, List.cons.injEq] at h
      exact absurd (h.1 ▸ List.mem_cons_self x xs)
        (fun hx => ha (h.1 ▸ List.mem_cons_self x xs) |>.elim)
    | cons y ys =>
      simp only [List.cons_append, List.cons.injEq] at h
      have hx : sep ∉ xs := fun hm => ha (List.mem_cons_of_mem x hm)
      have hy : sep ∉ ys := fun hm => hc (List.mem_cons_of_mem y hm)
      have hr := ih hx hy h.2
      exact ⟨by rw [h.1, hr.1], hr.2⟩

@[simp] theorem pyStr_data (n : Nat) : (pyStr n).data = natDigits n := rfl

@[simp] theorem data_slash : ("/" : String).data = ['/'] := rfl

@[simp] theorem data_underscore : ("_" : String).data = ['_'] := rfl

/-- Two `/styx_input/<id>/<rest>` paths with different ids are different. -/
theorem styxInput_inj {i j : Nat} {r1 r2 : String}
    (h : "/styx_input/" ++ pyStr i ++ "/" ++ r1 = "/styx_input/" ++ pyStr j ++ "/" ++ r2) :
    i = j := by
  have hd := congrArg String.data h
  simp only [String.data_append, pyStr_data, data_slash, List.append_assoc,
    List.singleton_append] at hd
  have hd2 := List.append_cancel_left hd
  have hs := sep_split (natDigits_not_mem i '/' rfl) (natDigits_not_mem j '/' rfl) hd2
  exact natDigits_inj hs.1

/-- Two `<dataDir>/<uid>_<counter>_<name>` strings with the same prefix but
different counters are different. -/
theorem outputDir_inj {dd u : String} {c1 c2 : Nat} {n1 n2 : String}
    (h : dd ++ "/" ++ u ++ "_" ++ pyStr c1 ++ "_" ++ n1 =
         dd ++ "/" ++ u ++ "_" ++ pyStr c2 ++ "_" ++ n2) :
    c1 = c2 := by
  have hd := congrArg String.data h
  simp only [String.data_append, pyStr_data, data_slash, data_underscore,
    List.append_assoc, List.singleton_append] at hd
  have hd2 := List.append_cancel_left hd
  injection hd2 with _ hd3
  have hd4 := List.append_cancel_left hd3
  injection hd4 with _ hd5
  have hs := sep_split (natDigits_not_mem c1 '_' rfl) (natDigits_not_mem c2 '_' rfl) hd5
  exact natDigits_inj hs.1

/-! ### Facts about the joins and `shlex` quoting -/

theorem environArgsArg_has_eq (kv : String × String) (rest : List (String × String)) :
    '=' ∈ (environArgsArg (kv :: rest)).data := by
  cases rest with
  | nil =>
    show '=' ∈ (kv.1 ++ "=" ++ kv.2).data
    simp [String.data_append]
  | cons kv2 rest2 =>
    show '=' ∈ ((kv.1 ++ "=" ++ kv.2) ++ "," ++ _).data
    simp [String.data_append]

theorem environArgsArg_eq_empty_iff (environ : List (String × String)) :
    environArgsArg environ = "" ↔ environ = [] := by
  constructor
  · intro h
    cases environ with
    | nil => rfl
    | cons kv rest =>
      have hm := environArgsArg_has_eq kv rest
      rw [h] at hm
      simp at hm
  · intro h
    subst h
    rfl

theorem mem_escSQ {c : Char} : ∀ {l : List Char}, c ∈ escSQ l →
    c ∈ l ∨ c = '\'' ∨ c = '"' := by
  intro l
  induction l with
  | nil => intro h; simp [escSQ] at h
  | cons x xs ih =>
    intro h
    unfold escSQ at h
    by_cases hx : x = '\''
    · rw [if_pos hx] at h
      simp only [List.mem_cons] at h
      rcases h with rfl | rfl | rfl | rfl | rfl | h
      · exact Or.inr (Or.inl rfl)
      · exact Or.inr (Or.inr rfl)
      · exact Or.inr (Or.inl rfl)
      · exact Or.inr (Or.inr rfl)
      · exact Or.inr (Or.inl rfl)
      · rcases ih h with h1 | h2
        · exact Or.inl (List.mem_cons_of_mem x h1)
        · exact Or.inr h2
    · rw [if_neg hx] at h
      simp only [List.mem_cons] at h
      rcases h with rfl | h
      · exact Or.inl (List.mem_cons_self _ _)
      · rcases ih h with h1 | h2
        · exact Or.inl (List.mem_cons_of_mem x h1)
        · exact Or.inr h2

theorem mem_shlexQuote {c : Char} {s : String} (h : c ∈ (shlexQuote s).data) :
    c ∈ s.data ∨ c = '\'' ∨ c = '"' := by
  unfold shlexQuote at h
  by_cases he : s = ""
  · rw [if_pos he] at h
    have hq : (("''" : String)).data = ['\'', '\''] := rfl
    rw [hq] at h
    simp only [List.mem_cons, List.not_mem_nil, or_false] at h
    rcases h with rfl | rfl
    · exact Or.inr (Or.inl rfl)
    · exact Or.inr (Or.inl rfl)
  · rw [if_neg he] at h
    by_cases hs : s.data.all shlexSafeChar
    · rw [if_pos hs] at h
      exact Or.inl h
    · rw [if_neg hs] at h
      have hdata : (("'" ++ String.mk (escSQ s.data) ++ "'" : String)).data
          = '\'' :: (escSQ s.data ++ ['\'']) := rfl
      rw [hdata] at h
      simp only [List.mem_cons] at h
      rcases h with rfl | h
      · exact Or.inr (Or.inl rfl)
      · rcases List.mem_append.mp h with h1 | h2
        · rcases mem_escSQ h1 with h3 | h4
          · exact Or.inl h3
          · exact Or.inr h4
        · simp only [List.mem_singleton] at h2
          exact Or.inr (Or.inl h2)

theorem mem_strJoin {sep : String} {c : Char} :
    ∀ {l : List String}, c ∈ (strJoin sep l).data →
      c ∈ sep.data ∨ ∃ s ∈ l, c ∈ s.data := by
  intro l
  induction l with
  | nil => intro h; simp [strJoin] at h
  | cons x xs ih =>
    intro h
    cases xs with
    | nil =>
      refine Or.inr ⟨x, List.mem_cons_self x [], ?_⟩
      simpa [strJoin] using h
    | cons y ys =>
      have hx : strJoin sep (x :: y :: ys) = x ++ sep ++ strJoin sep (y :: ys) := rfl
      rw [hx] at h
      simp only [String.data_append] at h
      rcases List.mem_append.mp h with h1 | h2
      · rcases List.mem_append.mp h1 with h3 | h4
        · exact Or.inr ⟨x, List.mem_cons_self x _, h3⟩
        · exact Or.inl h4
      · rcases ih h2 with h5 | ⟨s, hs, hcs⟩
        · exact Or.inl h5
        · exact Or.inr ⟨s, List.mem_cons_of_mem x hs, hcs⟩

theorem mem_shlexJoin {c : Char} {args : List String}
    (h : c ∈ (shlexJoin args).data) :
    c = ' ' ∨ c = '\'' ∨ c = '"' ∨ ∃ a ∈ args, c ∈ a.data := by
  rcases mem_strJoin h with h1 | ⟨s, hs, hcs⟩
  · have hsp : (" " : String).data = [' '] := rfl
    rw [hsp] at h1
    simp only [List.mem_singleton] at h1
    exact Or.inl h1
  · rcases List.mem_map.mp hs with ⟨a, ha, rfl⟩
    rcases mem_shlexQuote hcs with h2 | h3 | h4
    · exact Or.inr (Or.inr (Or.inr ⟨a, ha, h2⟩))
    · exact Or.inr (Or.inl h3)
    · exact Or.inr (Or.inr (Or.inl h4))

/-! ### Facts about mount formatting -/

theorem inputMountSpecs_forall2 :
    ∀ {ms : List Mount} {ins : List String}, inputMountSpecs ms = Except.ok ins →
      List.Forall₂
        (fun (m : Mount) (s : String) =>
          singularity_mount (posixPath m.hostPath) m.localFile (!m.mutable) = Except.ok s)
        ms ins := by
  intro ms
  induction ms with
  | nil =>
    intro ins h
    simp only [inputMountSpecs] at h
    cases h
    exact List.Forall₂.nil
  | cons m rest ih =>
    intro ins h
    unfold inputMountSpecs at h
    cases hm : singularity_mount (posixPath m.hostPath) m.localFile (!m.mutable) with
    | error e => rw [hm] at h; cases h
    | ok s =>
      rw [hm] at h
      cases hr : inputMountSpecs rest with
      | error e => rw [hr] at h; cases h
      | ok tail =>
        rw [hr] at h
        cases h
        exact List.Forall₂.cons hm (ih hr)

theorem listStartsWith_nil (l : List Char) : listStartsWith l [] = true := by
  cases l <;> rfl

theorem listStartsWith_append (p t : List Char) :
    listStartsWith (p ++ t) p = true := by
  induction p with
  | nil => exact listStartsWith_nil t
  | cons c cs ih => simp [listStartsWith, ih]

theorem pyStartswith_append (pre t : String) :
    pyStartswith (pre ++ t) pre = true := by
  unfold pyStartswith
  rw [String.data_append]
  exact listStartsWith_append pre.data t.data

/-! ### Concrete fixtures used by the witnesses -/

/-- A sample host filesystem with one directory and two files in it. -/
def sampleFS : FileSystem :=
  { isFile := fun p => p == ["data", "in.txt"] || p == ["data", "other.txt"],
    isDir := fun p => p == ["data"] }

/-- A freshly started execution, as built by `start_execution`. -/
def sampleExec : SingularityExecution :=
  { outputDir := "/tmp/out", containerTag := "docker://ubuntu",
    singularityExecutable := "singularity",
    singularityExtraArgs := ["--no-mount", "hostfs"],
    environ := [], inputMounts := [], inputFileNextId := 0 }

/-- The same execution after one input declaration (sequence id 1). -/
def sampleExecB : SingularityExecution := { sampleExec with inputFileNextId := 1 }

/-! ### Shape of a successful `input_file` call -/

theorem input_file_ok_shape {fs : FileSystem} {ex : SingularityExecution}
    {host : HostPath} {rp mb : Bool} {p : String} {ex' : SingularityExecution}
    (h : input_file fs ex host rp mb = Except.ok (p, ex')) :
    ex'.inputFileNextId = ex.inputFileNextId + 1 ∧
    ∃ rest, p = "/styx_input/" ++ pyStr ex.inputFileNextId ++ "/" ++ rest := by
  unfold input_file at h
  cases rp with
  | true =>
    by_cases hd : fs.isDir (pathParent host) = true
    · rw [if_pos rfl, if_pos hd] at h
      injection h with h'
      have hp := congrArg Prod.fst h'
      have he := congrArg Prod.snd h'
      simp only at hp he
      refine ⟨by rw [← he], ⟨pathName (pathParent host) ++ "/" ++ pathName host, ?_⟩⟩
      rw [← hp]
      simp [String.append_assoc]
    · rw [if_pos rfl, if_neg hd] at h
      cases h
  | false =>
    have hff : ¬((false : Bool) = true) := by simp
    rw [if_neg hff] at h
    by_cases he : fs.pathExists host = true
    · rw [if_pos he] at h
      injection h with h'
      have hp := congrArg Prod.fst h'
      have hex := congrArg Prod.snd h'
      simp only at hp hex
      exact ⟨by rw [← hex], ⟨pathName host, by rw [← hp]⟩⟩
    · rw [if_neg he] at h
      cases h

/-! ### Claims C2, C3, C5 -/

/-- Claim C2: `input_file(hostPath, resolveParent=false, mutable)` raises
`NotFoundError` exactly when `hostPath` does not exist, and otherwise returns
`/styx_input/<id>/<basename(hostPath)>` while recording a mount of the file
itself (read-only in `run()` unless `mutable`); with `resolveParent=true` it
raises exactly when the parent directory is missing, and otherwise mounts the
parent directory under `/styx_input/<id>/<basename(parentDir)>` and returns
that path joined with the original basename. -/
theorem claim_C2_input_file (fs : FileSystem) (ex : SingularityExecution)
    (host : HostPath) (mutable : Bool) :
    ((∃ e, input_file fs ex host false mutable = Except.error e) ↔
      fs.pathExists host = false) ∧
    ((∃ e, input_file fs ex host true mutable = Except.error e) ↔
      fs.isDir (pathParent host) = false) ∧
    (fs.pathExists host = true →
      input_file fs ex host false mutable =
        Except.ok ("/styx_input/" ++ pyStr ex.inputFileNextId ++ "/" ++ pathName host,
          { ex with
            inputMounts := ex.inputMounts ++
              [⟨host, "/styx_input/" ++ pyStr ex.inputFileNextId ++ "/" ++ pathName host,
                mutable⟩],
            inputFileNextId := ex.inputFileNextId + 1 })) ∧
    (fs.isDir (pathParent host) = true →
      input_file fs ex host true mutable =
        Except.ok (("/styx_input/" ++ pyStr ex.inputFileNextId ++ "/" ++
            pathName (pathParent host)) ++ "/" ++ pathName host,
          { ex with
            inputMounts := ex.inputMounts ++
              [⟨pathParent host,
                "/styx_input/" ++ pyStr ex.inputFileNextId ++ "/" ++
                  pathName (pathParent host),
                mutable⟩],
            inputFileNextId := ex.inputFileNextId + 1 })) ∧
    (∀ m : Mount, m.mutable = mutable → Mount.readonlyFlag m = !mutable) := by
  refine ⟨?_, ?_, ?_, ?_, ?_⟩
  · cases he : fs.pathExists host <;> simp [input_file, he]
  · cases hd : fs.isDir (pathParent host) <;> simp [input_file, hd]
  · intro he; simp [input_file, he]
  · intro hd; simp [input_file, hd]
  · intro m hm; simp [Mount.readonlyFlag, hm]

/-- Claim C2 witness: declaring the sample input file records its mount and
returns its sequence-0 in-container path. -/
theorem claim_C2_witness :
    input_file sampleFS sampleExec ["data", "in.txt"] false false =
      Except.ok ("/styx_input/0/in.txt",
        { sampleExec with
          inputMounts := [⟨["data", "in.txt"], "/styx_input/0/in.txt", false⟩],
          inputFileNextId := 1 }) := by
  exact (claim_C2_input_file sampleFS sampleExec ["data", "in.txt"] false).2.2.1 (by decide)

/-- Claim C3: sequence ids of successful `input_file` calls increase by one
and are embedded in the returned in-container path, so declarations made at
different sequence ids — in particular two distinct host paths declared one
after the other — receive distinct in-container paths. -/
theorem claim_C3_sequence_ids (fs : FileSystem) (ex1 ex2 : SingularityExecution)
    (h1 h2 : HostPath) (rp1 rp2 mut1 mut2 : Bool) (p1 p2 : String)
    (ex1' ex2' : SingularityExecution)
    (hc1 : input_file fs ex1 h1 rp1 mut1 = Except.ok (p1, ex1'))
    (hc2 : input_file fs ex2 h2 rp2 mut2 = Except.ok (p2, ex2'))
    (hid : ex1.inputFileNextId ≠ ex2.inputFileNextId)
    (hne : h1 ≠ h2) :
    ex1'.inputFileNextId = ex1.inputFileNextId + 1 ∧
    (∃ rest, p1 = "/styx_input/" ++ pyStr ex1.inputFileNextId ++ "/" ++ rest) ∧
    p1 ≠ p2 := by
  obtain ⟨hinc1, r1, hp1⟩ := input_file_ok_shape hc1
  obtain ⟨hinc2, r2, hp2⟩ := input_file_ok_shape hc2
  refine ⟨hinc1, ⟨r1, hp1⟩, ?_⟩
  intro heq
  rw [hp1, hp2] at heq
  exact hid (styxInput_inj heq)

/-- Claim C3 witness: the paths returned for the two sample files declared at
sequence ids 0 and 1 are distinct. -/
theorem claim_C3_witness :
    ("/styx_input/0/in.txt" : String) ≠ "/styx_input/1/other.txt" := by
  exact (claim_C3_sequence_ids sampleFS sampleExec sampleExecB
    ["data", "in.txt"] ["data", "other.txt"] false false false false
    "/styx_input/0/in.txt" "/styx_input/1/other.txt" _ _ rfl rfl
    (by decide) (by decide)).2.2

/-- Claim C5: `_singularity_mount` fails with `InvalidPathError` iff either
path contains a comma, backslash or colon; a successful result is exactly
`host:container` with `:ro` appended exactly when read-only, and then neither
path contains a disallowed character. -/
theorem claim_C5_mount_format (host container : String) (readonly : Bool) :
    ((∃ e, singularity_mount host container readonly = Except.error e) ↔
      ∃ c ∈ host.data ++ container.data, c = ',' ∨ c = '\\' ∨ c = ':') ∧
    (∀ s, singularity_mount host container readonly = Except.ok s →
      s = host ++ ":" ++ container ++ (if readonly then ":ro" else "") ∧
      ∀ c, (c = ',' ∨ c = '\\' ∨ c = ':') → c ∉ host.data ∧ c ∉ container.data) := by
  unfold singularity_mount
  by_cases hb : (host ++ container).data.any illegalMountChar = true
  · rw [if_pos hb]
    constructor
    · constructor
      · intro _
        rcases List.any_eq_true.mp hb with ⟨c, hc, hic⟩
        rw [String.data_append] at hc
        refine ⟨c, hc, ?_⟩
        simpa [illegalMountChar, Bool.or_eq_true, decide_eq_true_eq, or_assoc] using hic
      · intro _
        exact ⟨"Illegal characters in path", rfl⟩
    · intro s hs
      exact Except.noConfusion hs
  · rw [if_neg hb]
    have hall : ∀ c ∈ (host ++ container).data, illegalMountChar c = false := by
      intro c hc
      by_contra hcc
      exact hb (List.any_eq_true.mpr ⟨c, hc, by simpa using hcc⟩)
    constructor
    · constructor
      · intro ⟨e, he⟩
        exact Except.noConfusion he
      · intro ⟨c, hcm, hcd⟩
        exfalso
        have hmem : c ∈ (host ++ container).data := by
          rw [String.data_append]; exact hcm
        have := hall c hmem
        rcases hcd with rfl | rfl | rfl <;> simp [illegalMountChar] at this
    · intro s hs
      injection hs with hv
      constructor
      · exact hv.symm
      · intro c hcd
        constructor
        · intro hch
          have hmem : c ∈ (host ++ container).data := by
            rw [String.data_append]; exact List.mem_append.mpr (Or.inl hch)
          have := hall c hmem
          rcases hcd with rfl | rfl | rfl <;> simp [illegalMountChar] at this
        · intro hch
          have hmem : c ∈ (host ++ container).data := by
            rw [String.data_append]; exact List.mem_append.mpr (Or.inr hch)
          have := hall c hmem
          rcases hcd with rfl | rfl | rfl <;> simp [illegalMountChar] at this

/-- Claim C5 witness: a legal read-only mount formats to `host:container:ro`
and its paths contain no disallowed character. -/
theorem claim_C5_witness :
    ("/a:/b:ro" : String) = "/a" ++ ":" ++ "/b" ++ (if true then ":ro" else "") ∧
    ∀ c, (c = ',' ∨ c = '\\' ∨ c = ':') →
      c ∉ ("/a" : String).data ∧ c ∉ ("/b" : String).data := by
  exact (claim_C5_mount_format "/a" "/b" true).2 "/a:/b:ro" rfl

/-! ### Claims C1, C4, C10 -/

/-- Claim C1: with N successfully formatted input mounts, `run()` assembles
the engine command as executable, `exec`, extra args, the N+1 `--bind` mounts
(inputs in declaration order with `readonly=not mutable`, then the writable
output mount, last), the `--env` flag with the comma-joined `key=value` list
present iff the environment is non-empty, then container reference, entrypoint
override and script path. -/
theorem claim_C1_command_shape (ex : SingularityExecution)
    (ins : List String) (outSpec : String)
    (hin : inputMountSpecs ex.inputMounts = Except.ok ins)
    (hout : singularity_mount ex.outputDir "/styx_output" false = Except.ok outSpec) :
    singularityCommand ex =
      Except.ok ([ex.singularityExecutable, "exec"] ++ ex.singularityExtraArgs ++
        bindArgs (ins ++ [outSpec]) ++
        (if ex.environ = [] then [] else ["--env", environArgsArg ex.environ]) ++
        [ex.containerTag, "/bin/bash", "/styx_output/run.sh"]) ∧
    List.Forall₂ (fun (m : Mount) (s : String) =>
        singularity_mount (posixPath m.hostPath) m.localFile (!m.mutable) = Except.ok s)
      ex.inputMounts ins ∧
    (ins ++ [outSpec]).length = ex.inputMounts.length + 1 ∧
    outSpec = ex.outputDir ++ ":" ++ "/styx_output" := by
  have hf2 := inputMountSpecs_forall2 hin
  have hlen := hf2.length_eq
  have hout' : outSpec = ex.outputDir ++ ":" ++ "/styx_output" := by
    unfold singularity_mount at hout
    by_cases hb : (ex.outputDir ++ "/styx_output").data.any illegalMountChar = true
    · rw [if_pos hb] at hout
      exact Except.noConfusion hout
    · rw [if_neg hb] at hout
      injection hout with hv
      rw [← hv]
      simp
  refine ⟨?_, hf2, ?_, hout'⟩
  · unfold singularityCommand
    rw [hin, hout]
    by_cases henv : ex.environ = []
    · rw [henv]
      simp [environArgsArg, strJoin]
    · have hne' : environArgsArg ex.environ ≠ "" := fun hc =>
        henv ((environArgsArg_eq_empty_iff _).mp hc)
      rw [if_neg hne', if_neg henv]
  · rw [List.length_append, hlen]
    simp

/-- Claim C1 witness: the freshly started sample execution (no inputs, empty
environment) yields exactly the nine-element engine command with its single
writable output mount. -/
theorem claim_C1_witness :
    singularityCommand sampleExec =
      Except.ok (["singularity", "exec"] ++ ["--no-mount", "hostfs"] ++
        bindArgs ([] ++ ["/tmp/out:/styx_output"]) ++
        (if ([] : List (String × String)) = [] then []
         else ["--env", environArgsArg []]) ++
        ["docker://ubuntu", "/bin/bash", "/styx_output/run.sh"]) := by
  exact (claim_C1_command_shape sampleExec [] "/tmp/out:/styx_output" rfl rfl).1

/-- Claim C4: `run()` returns normally when the child exits 0, and on a
non-zero exit code (for example 17) raises `StyxSingularityError` carrying
that exit code, the full engine command line and the in-container command. -/
theorem claim_C4_exit_codes (ex : SingularityExecution) (cargs : List String)
    (cmd : List String) (h : singularityCommand ex = Except.ok cmd) :
    runOutcome ex cargs (some 0) = Except.ok () ∧
    (∀ c : Int, c ≠ 0 →
      runOutcome ex cargs (some c) =
        Except.error (RunError.executionFailed ⟨some c, cmd, cargs⟩)) := by
  constructor
  · unfold runOutcome
    rw [h]
    simp [truthyCode]
  · intro c hc
    unfold runOutcome
    rw [h]
    simp [truthyCode, bne_iff_ne, hc]

/-- Claim C4 witness: exit code 17 of the sample execution raises the error
carrying code 17, the engine command and the original command. -/
theorem claim_C4_witness :
    runOutcome sampleExec ["echo", "hi"] (some 17) =
      Except.error (RunError.executionFailed
        ⟨some 17,
         ["singularity", "exec", "--no-mount", "hostfs", "--bind", "/tmp/out:/styx_output",
          "docker://ubuntu", "/bin/bash", "/styx_output/run.sh"],
         ["echo", "hi"]⟩) := by
  exact (claim_C4_exit_codes sampleExec ["echo", "hi"] _ rfl).2 17 (by decide)

/-- Claim C10: `run()` raises only on a truthy polled return code, so a
`None` return code behaves exactly like exit code 0 and returns normally. -/
theorem claim_C10_none_exit (ex : SingularityExecution) (cargs : List String)
    (cmd : List String) (h : singularityCommand ex = Except.ok cmd) :
    runOutcome ex cargs none = Except.ok () ∧
    runOutcome ex cargs none = runOutcome ex cargs (some 0) := by
  unfold runOutcome
  rw [h]
  simp [truthyCode]

/-- Claim C10 witness: a `None` return code on the sample execution returns
normally. -/
theorem claim_C10_witness : runOutcome sampleExec ["true"] none = Except.ok () := by
  exact (claim_C10_none_exit sampleExec ["true"] _ rfl).1

/-! ### Claim C6 -/

/-- Claim C6 counterexample: a command argument containing a carriage return
is shell-quoted unchanged into `run.sh`, so the script is not `\n`-only — the
claim as stated fails on `cargs = ["a\rb"]`. -/
theorem claim_C6_counterexample : '\r' ∈ (runScript ["a\rb"]).data := by decide

/-- Claim C6 (amended): the run script is the shebang line, a `cd` into the
output mount point, exactly one shell-escaped rendering of the command and a
final newline; it begins with the shebang, and it contains no carriage return
provided no command argument contains one.  (It is a pure function of the
command, so identical inputs give byte-identical scripts.) -/
theorem claim_C6_script (cargs : List String) :
    runScript cargs = "#!/bin/bash\n" ++ "cd /styx_output\n" ++ shlexJoin cargs ++ "\n" ∧
    pyStartswith (runScript cargs) "#!/bin/bash\n" = true ∧
    ((∀ a ∈ cargs, '\r' ∉ a.data) → '\r' ∉ (runScript cargs).data) := by
  have hsplit : ("#!/bin/bash\ncd /styx_output\n" : String) =
      "#!/bin/bash\n" ++ "cd /styx_output\n" := by decide
  refine ⟨?_, ?_, ?_⟩
  · show ("#!/bin/bash\ncd /styx_output\n" ++ shlexJoin cargs ++ "\n" : String) = _
    rw [hsplit]
  · have h2 : runScript cargs =
        "#!/bin/bash\n" ++ ("cd /styx_output\n" ++ shlexJoin cargs ++ "\n") := by
      show ("#!/bin/bash\ncd /styx_output\n" ++ shlexJoin cargs ++ "\n" : String) = _
      rw [hsplit, String.append_assoc, String.append_assoc, String.append_assoc]
    rw [h2]
    exact pyStartswith_append _ _
  · intro hargs hmem
    unfold runScript at hmem
    simp only [String.data_append, List.append_assoc, List.mem_append] at hmem
    rcases hmem with h1 | h2 | h3
    · have : '\r' ∉ ("#!/bin/bash\ncd /styx_output\n" : String).data := by decide
      exact this h1
    · rcases mem_shlexJoin h2 with h4 | h5 | h6 | ⟨a, ha, hca⟩
      · exact absurd h4 (by decide)
      · exact absurd h5 (by decide)
      · exact absurd h6 (by decide)
      · exact hargs a ha hca
    · have : '\r' ∉ ("\n" : String).data := by decide
      exact this h3

/-- Claim C6 witness: a carriage-return-free command yields a
carriage-return-free script. -/
theorem claim_C6_witness : '\r' ∉ (runScript ["ls", "-l"]).data := by
  exact (claim_C6_script ["ls", "-l"]).2.2 (by decide)

/-! ### Claims C7 and C8 -/

/-- Claim C7: `start_execution` fails when the metadata names no container
image tag; otherwise it resolves the tag through the override table by exact
match only and prepends `docker://` when the resolved tag lacks it, so the
context's container reference always starts with `docker://`. -/
theorem claim_C7_container_tag (r : SingularityRunner) (md : Metadata) :
    (md.containerImageTag = none →
      start_execution r md = Except.error "No container image tag specified in metadata") ∧
    (∀ tag, md.containerImageTag = some tag →
      start_execution r md = Except.ok
        ({ outputDir := r.dataDir ++ "/" ++ r.uid ++ "_" ++ pyStr r.executionCounter ++
             "_" ++ md.name,
           containerTag :=
             if pyStartswith (lookupOverride r.imageOverrides tag) "docker://" then
               lookupOverride r.imageOverrides tag
             else "docker://" ++ lookupOverride r.imageOverrides tag,
           singularityExecutable := r.singularityExecutable,
           singularityExtraArgs := r.singularityExtraArgs,
           environ := r.environ,
           inputMounts := [],
           inputFileNextId := 0 },
         { r with executionCounter := r.executionCounter + 1 }) ∧
      pyStartswith
        (if pyStartswith (lookupOverride r.imageOverrides tag) "docker://" then
          lookupOverride r.imageOverrides tag
         else "docker://" ++ lookupOverride r.imageOverrides tag) "docker://" = true ∧
      ((∀ kv ∈ r.imageOverrides, kv.1 ≠ tag) →
        lookupOverride r.imageOverrides tag = tag)) := by
  constructor
  · intro h
    unfold start_execution
    rw [h]
  · intro tag htag
    refine ⟨?_, ?_, ?_⟩
    · unfold start_execution
      rw [htag]
      simp [Nat.add_sub_cancel]
    · by_cases hsw : pyStartswith (lookupOverride r.imageOverrides tag) "docker://" = true
      · rw [if_pos hsw]
        exact hsw
      · rw [if_neg hsw]
        exact pyStartswith_append "docker://" _
    · intro hno
      unfold lookupOverride
      rw [List.find?_eq_none.mpr ?_]
      intro kv hkv
      simpa using hno kv hkv

/-- Sample runner state, fresh from the constructor. -/
def sampleRunner : SingularityRunner :=
  { dataDir := "styx_tmp", uid := "a1b2", executionCounter := 0,
    imageOverrides := [], singularityExecutable := "singularity",
    singularityExtraArgs := ["--no-mount", "hostfs"], environ := [] }

/-- The sample runner after one `start_execution` call. -/
def sampleRunnerB : SingularityRunner := { sampleRunner with executionCounter := 1 }

/-- Sample metadata naming an unprefixed container tag. -/
def mdUbuntu : Metadata := { name := "job", containerImageTag := some "ubuntu" }

/-- Claim C7 witness: starting with an unprefixed tag and empty override
table yields a context whose reference is `docker://ubuntu`. -/
theorem claim_C7_witness :
    start_execution sampleRunner mdUbuntu = Except.ok
      ({ outputDir := "styx_tmp/a1b2_0_job",
         containerTag := "docker://ubuntu",
         singularityExecutable := "singularity",
         singularityExtraArgs := ["--no-mount", "hostfs"],
         environ := [],
         inputMounts := [],
         inputFileNextId := 0 },
       sampleRunnerB) := by
  exact ((claim_C7_container_tag sampleRunner mdUbuntu).2 "ubuntu" rfl).1.trans (by rfl)

/-- Shape of a successful `start_execution` call. -/
theorem start_execution_ok_shape {r : SingularityRunner} {md : Metadata}
    {ex : SingularityExecution} {r' : SingularityRunner}
    (h : start_execution r md = Except.ok (ex, r')) :
    r'.executionCounter = r.executionCounter + 1 ∧
    ex.outputDir = r.dataDir ++ "/" ++ r.uid ++ "_" ++ pyStr r.executionCounter ++
      "_" ++ md.name := by
  unfold start_execution at h
  cases htag : md.containerImageTag with
  | none =>
    rw [htag] at h
    exact Except.noConfusion h
  | some tag =>
    rw [htag] at h
    injection h with h'
    have hex := congrArg Prod.fst h'
    have hr := congrArg Prod.snd h'
    simp only at hex hr
    constructor
    · rw [← hr]
    · rw [← hex]
      simp [Nat.add_sub_cancel]

/-- Claim C8: each successful `start_execution` call bumps the invocation
counter by one, derives the output directory as
`<dataRoot>/<instanceId>_<counter>_<name>`, and calls made at different
counter values of the same factory get distinct output directories even when
the descriptors share a name. -/
theorem claim_C8_unique_output_dirs (r1 r2 : SingularityRunner) (md1 md2 : Metadata)
    (ex1 ex2 : SingularityExecution) (r1' r2' : SingularityRunner)
    (h1 : start_execution r1 md1 = Except.ok (ex1, r1'))
    (h2 : start_execution r2 md2 = Except.ok (ex2, r2'))
    (hdd : r1.dataDir = r2.dataDir) (hud : r1.uid = r2.uid)
    (hc : r1.executionCounter ≠ r2.executionCounter) :
    r1'.executionCounter = r1.executionCounter + 1 ∧
    ex1.outputDir = r1.dataDir ++ "/" ++ r1.uid ++ "_" ++ pyStr r1.executionCounter ++
      "_" ++ md1.name ∧
    ex1.outputDir ≠ ex2.outputDir := by
  obtain ⟨hc1, hd1⟩ := start_execution_ok_shape h1
  obtain ⟨hc2, hd2⟩ := start_execution_ok_shape h2
  refine ⟨hc1, hd1, ?_⟩
  intro heq
  rw [hd1, hd2, hdd, hud] at heq
  exact hc (outputDir_inj heq)

/-- Claim C8 witness: two sequential starts with the same descriptor name get
the distinct output directories `styx_tmp/a1b2_0_job` and
`styx_tmp/a1b2_1_job`. -/
theorem claim_C8_witness :
    ("styx_tmp/a1b2_0_job" : String) ≠ "styx_tmp/a1b2_1_job" := by
  exact (claim_C8_unique_output_dirs sampleRunner sampleRunnerB mdUbuntu mdUbuntu
    _ _ _ _ rfl rfl rfl rfl (by decide)).2.2

end Styx
